import Mathlib

/-!
Verification of the `annogen` build script (`setup.py`).

The script is, in order:
  1. `os.environ['CFLAGS'] = '-O3 -Wall -std=c++11 -stdlib=libc++'`
  2. `setup(name="annogen", ext_modules=cythonize("annogen/*.pyx",
        include_path=["annogen/"], language="c++"),
        packages=["annogen"], install_requires=["cython>=0.27"])`

We embed the process environment as an association list, the file system as
a list of paths, glob resolution as a filter over that list, and the run of
the script as an event trace: one environment write, one compiler-toolchain
invocation per matched source file (each carrying the environment in force
at that moment), and one package-registration step.  Compilation by the
external toolchain is an oracle `String → Except String Unit`.
-/

set_option autoImplicit false

namespace Annogen

/-- A process environment: an association list from variable names to
values, later bindings shadowing earlier ones of the same name. -/
abbrev Env := List (String × String)

/-- Read a variable from the environment (`os.environ[k]`, as a lookup). -/
def getEnv (env : Env) (k : String) : Option String :=
  (env.find? (fun p => p.1 == k)).map Prod.snd

/-- Write a variable into the environment (`os.environ[k] = v`): the new
binding replaces any existing binding of the same name. -/
def setEnv (env : Env) (k v : String) : Env :=
  (k, v) :: env.filter (fun p => p.1 != k)

/-- The literal flag string the script assigns to `CFLAGS`
(`setup.py` line 6). -/
def cflagsLiteral : String := "-O3 -Wall -std=c++11 -stdlib=libc++"

/-- The glob pattern passed to `cythonize` (`setup.py` line 10). -/
def pyxGlob : String := "annogen/*.pyx"

/-- Modelled from the spec: a glob pattern is "a file-path matching
expression resolved against the file system at build time"; `*` matches any
run of characters not containing the path separator.  (The glob engine
lives in the external Cython/glob machinery, not in `src/`.)  The `fuel`
argument only drives the recursion; every step shortens the pattern or the
path, so `pattern.length + path.length + 1` units always suffice. -/
def globMatch : Nat → List Char → List Char → Bool
  | 0, _, _ => false
  | _ + 1, [], [] => true
  | _ + 1, [], _ :: _ => false
  | fuel + 1, p :: ps, [] => p == '*' && globMatch fuel ps []
  | fuel + 1, p :: ps, c :: cs =>
    if p == '*' then
      globMatch fuel ps (c :: cs) || (c != '/' && globMatch fuel (p :: ps) cs)
    else
      p == c && globMatch fuel ps cs

/-- A path matches a glob pattern. -/
def matchesGlob (pattern path : String) : Bool :=
  globMatch (pattern.length + path.length + 1) pattern.data path.data

/-- Modelled from the spec: glob resolution returns the collection of file
paths in the (build-time) file system matched by the pattern, in file-system
order. -/
def resolveGlob (pattern : String) (fs : List String) : List String :=
  fs.filter (fun p => matchesGlob pattern p)

/-- An extension module produced by `cythonize` from one source file. -/
structure Extension where
  name : String
  sources : List String
  language : String
deriving DecidableEq, Repr

/-- The extension module `cythonize` builds from one matched `.pyx` file,
with `language="c++"` as passed at `setup.py` line 12. -/
def mkExt (src : String) : Extension :=
  { name := src, sources := [src], language := "c++" }

/-- The distribution object assembled by the `setup(...)` call
(`setup.py` lines 8-15): name, extension modules, packages and runtime
dependencies exactly as written in the source. -/
structure Distribution where
  name : String
  ext_modules : List Extension
  packages : List String
  install_requires : List String
deriving DecidableEq, Repr

/-- Build the distribution the script registers, given the compiled
extension modules. -/
def mkDist (exts : List Extension) : Distribution :=
  { name := "annogen"
    ext_modules := exts
    packages := ["annogen"]
    install_requires := ["cython>=0.27"] }

/-- Observable events of one run of the script. -/
inductive Event where
  | setEnvVar (key value : String)
  | compileCall (source : String) (env : Env)
  | buildRegister (dist : Distribution)
deriving DecidableEq, Repr

/-- Modelled from the spec: the build backend invokes the compiler
toolchain once per matched source file, sequentially, each invocation
reading the process environment in force at that moment; the first failure
aborts the build with the toolchain's error.  Returns the trace of
compiler invocations and the resulting extension modules (or the first
error). -/
def compileAll (env : Env) (compile : String → Except String Unit) :
    List String → List Event × Except String (List Extension)
  | [] => ([], Except.ok [])
  | src :: rest =>
    match compile src with
    | Except.error e => ([Event.compileCall src env], Except.error e)
    | Except.ok _ =>
      let r := compileAll env compile rest
      (Event.compileCall src env :: r.1,
       r.2.map (fun exts => mkExt src :: exts))

/-- The process environment after the script's single environment write
(`setup.py` line 6). -/
def scriptFinalEnv (env0 : Env) : Env :=
  setEnv env0 "CFLAGS" cflagsLiteral

/-- The registration step that follows a successful build: the `setup(...)`
call registers the assembled distribution; a failed build registers
nothing. -/
def registerEvents : Except String (List Extension) → List Event
  | Except.ok exts => [Event.buildRegister (mkDist exts)]
  | Except.error _ => []

/-- One run of `setup.py` over initial environment `env0`, build-time file
system `fs`, and compiler oracle `compile`: first the `CFLAGS` write
(line 6), then the `setup(...)` call (lines 8-15), which compiles every
file matched by `annogen/*.pyx` and, on success, registers the
distribution.  Returns the event trace and the outcome. -/
def runSetupScript (env0 : Env) (fs : List String)
    (compile : String → Except String Unit) :
    List Event × Except String Distribution :=
  (Event.setEnvVar "CFLAGS" cflagsLiteral ::
     ((compileAll (scriptFinalEnv env0) compile (resolveGlob pyxGlob fs)).1
        ++ registerEvents
             (compileAll (scriptFinalEnv env0) compile (resolveGlob pyxGlob fs)).2),
   ((compileAll (scriptFinalEnv env0) compile (resolveGlob pyxGlob fs)).2).map
     mkDist)

/-- Whether an event is a write to the process environment. -/
def isEnvWrite : Event → Bool
  | Event.setEnvVar _ _ => true
  | _ => false

/-- The source files the compiler toolchain was invoked on, in order, as
recorded in a trace. -/
def attemptedSources (evs : List Event) : List String :=
  evs.filterMap (fun e =>
    match e with
    | Event.compileCall s _ => some s
    | _ => none)

/-- Modelled from the spec: the exit status the invoking process reports
for the script's outcome (an uncaught failure yields a non-zero status). -/
def exitCode : Except String Distribution → Nat
  | Except.ok _ => 0
  | Except.error _ => 1

/-- Modelled from the spec: the external packaging tooling registers a
distribution under its name, replacing any prior registration of the same
name. -/
def registerDist (reg : List Distribution) (d : Distribution) :
    List Distribution :=
  d :: reg.filter (fun r => r.name != d.name)

end Annogen

section Sanity
open Annogen

example : matchesGlob pyxGlob "annogen/foo.pyx" = true := by decide

example : matchesGlob pyxGlob "annogen/sub/foo.pyx" = false := by decide

example : matchesGlob pyxGlob "other/foo.pyx" = false := by decide

example : matchesGlob pyxGlob "annogen/foo.py" = false := by decide

example :
    resolveGlob pyxGlob ["annogen/a.pyx", "README.md", "annogen/b.pyx"]
      = ["annogen/a.pyx", "annogen/b.pyx"] := by decide

end Sanity

namespace Annogen

/-! ### Helper lemmas about the environment model -/

theorem getEnv_setEnv_same (env : Env) (k v : String) :
    getEnv (setEnv env k v) k = some v := by
  simp [getEnv, setEnv, List.find?]

theorem find_key_filter_ne (env : Env) (k k' : String) (h : k' ≠ k) :
    (env.filter (fun p => p.1 != k)).find? (fun p => p.1 == k')
      = env.find? (fun p => p.1 == k') := by
  induction env with
  | nil => rfl
  | cons a l ih =>
    by_cases hk : a.1 = k
    · have h1 : (a.1 != k) = false := by simp [hk]
      have h2 : (a.1 == k') = false := by
        simp [hk]
        exact fun hc => h hc.symm
      simp [List.filter_cons, List.find?_cons, h1, h2, ih]
    · have h1 : (a.1 != k) = true := by simp [hk]
      by_cases hk' : a.1 = k'
      · simp [List.filter_cons, List.find?_cons, h1, hk', h]
      · have h2 : (a.1 == k') = false := by simp [hk']
        simp [List.filter_cons, List.find?_cons, h1, h2, ih]

theorem getEnv_setEnv_other (env : Env) (k k' v : String) (h : k' ≠ k) :
    getEnv (setEnv env k v) k' = getEnv env k' := by
  have h2 : (k == k') = false := by
    simp
    exact fun hc => h hc.symm
  simp [getEnv, setEnv, List.find?_cons, h2, find_key_filter_ne env k k' h]

theorem filter_ne_setEnv (env : Env) (k v : String) :
    (setEnv env k v).filter (fun p => p.1 != k)
      = env.filter (fun p => p.1 != k) := by
  simp [setEnv, List.filter_cons, List.filter_filter]

/-! ### Helper lemmas about `compileAll` and the run trace -/

theorem compileAll_no_env_write (env : Env)
    (compile : String → Except String Unit) (srcs : List String) :
    ((compileAll env compile srcs).1).filter isEnvWrite = [] := by
  induction srcs with
  | nil => rfl
  | cons s rest ih =>
    cases hc : compile s with
    | error e => simp [compileAll, hc, isEnvWrite]
    | ok u => simp [compileAll, hc, isEnvWrite, ih]

theorem registerEvents_no_env_write (r : Except String (List Extension)) :
    (registerEvents r).filter isEnvWrite = [] := by
  cases r with
  | error e => rfl
  | ok exts => rfl

theorem compileAll_compileCall_env (env : Env)
    (compile : String → Except String Unit) (srcs : List String)
    (s : String) (env1 : Env)
    (he : Event.compileCall s env1 ∈ (compileAll env compile srcs).1) :
    env1 = env := by
  induction srcs with
  | nil => simp [compileAll] at he
  | cons t rest ih =>
    cases hc : compile t with
    | error e =>
      rw [show compileAll env compile (t :: rest)
            = ([Event.compileCall t env], Except.error e) by
          simp [compileAll, hc]] at he
      simp at he
      exact he.2
    | ok u =>
      rw [show (compileAll env compile (t :: rest)).1
            = Event.compileCall t env :: (compileAll env compile rest).1 by
          simp [compileAll, hc]] at he
      rcases List.mem_cons.mp he with h1 | h1
      · injection h1 with hs henv
      · exact ih h1

theorem registerEvents_no_compileCall (r : Except String (List Extension))
    (s : String) (env1 : Env) :
    Event.compileCall s env1 ∉ registerEvents r := by
  cases r with
  | error e => simp [registerEvents]
  | ok exts => simp [registerEvents]

theorem compileAll_snd_env_indep (env env' : Env)
    (compile : String → Except String Unit) (srcs : List String) :
    (compileAll env compile srcs).2 = (compileAll env' compile srcs).2 := by
  induction srcs with
  | nil => rfl
  | cons s rest ih =>
    cases hc : compile s with
    | error e => simp [compileAll, hc]
    | ok u => simp [compileAll, hc, ih]

theorem compileAll_attempted_env_indep (env env' : Env)
    (compile : String → Except String Unit) (srcs : List String) :
    attemptedSources (compileAll env compile srcs).1
      = attemptedSources (compileAll env' compile srcs).1 := by
  induction srcs with
  | nil => rfl
  | cons s rest ih =>
    cases hc : compile s with
    | error e => simp [compileAll, hc, attemptedSources]
    | ok u => simp [compileAll, hc, attemptedSources] at ih ⊢; exact ih

theorem attemptedSources_registerEvents (r : Except String (List Extension)) :
    attemptedSources (registerEvents r) = [] := by
  cases r with
  | error e => rfl
  | ok exts => rfl

theorem compileAll_all_ok (env : Env)
    (compile : String → Except String Unit) (srcs : List String)
    (h : ∀ s, compile s = Except.ok ()) :
    compileAll env compile srcs
      = (srcs.map (fun s => Event.compileCall s env),
         Except.ok (srcs.map mkExt)) := by
  induction srcs with
  | nil => rfl
  | cons s rest ih => simp [compileAll, h s, ih, Except.map]

theorem compileAll_ok_shape (env : Env)
    (compile : String → Except String Unit) (srcs : List String)
    (exts : List Extension)
    (h : (compileAll env compile srcs).2 = Except.ok exts) :
    exts = srcs.map mkExt := by
  induction srcs generalizing exts with
  | nil =>
    simp [compileAll] at h
    simp [h]
  | cons s rest ih =>
    cases hc : compile s with
    | error e => rw [show (compileAll env compile (s :: rest)).2 = Except.error e by
        simp [compileAll, hc]] at h; cases h
    | ok u =>
      rw [show (compileAll env compile (s :: rest)).2
            = ((compileAll env compile rest).2).map (fun l => mkExt s :: l) by
          simp [compileAll, hc]] at h
      cases hr : (compileAll env compile rest).2 with
      | error e => rw [hr] at h; cases h
      | ok exts0 =>
        rw [hr] at h
        simp [Except.map] at h
        rw [← h, ih exts0 hr]
        rfl

theorem compileAll_error_origin (env : Env)
    (compile : String → Except String Unit) (srcs : List String)
    (m : String)
    (h : (compileAll env compile srcs).2 = Except.error m) :
    ∃ s ∈ srcs, compile s = Except.error m := by
  induction srcs with
  | nil => simp [compileAll] at h
  | cons s rest ih =>
    cases hc : compile s with
    | error e =>
      rw [show (compileAll env compile (s :: rest)).2 = Except.error e by
        simp [compileAll, hc]] at h
      cases h
      exact ⟨s, List.mem_cons_self s rest, hc⟩
    | ok u =>
      rw [show (compileAll env compile (s :: rest)).2
            = ((compileAll env compile rest).2).map (fun l => mkExt s :: l) by
          simp [compileAll, hc]] at h
      cases hr : (compileAll env compile rest).2 with
      | error e =>
        rw [hr] at h
        simp [Except.map] at h
        obtain ⟨t, ht, hct⟩ := ih (h ▸ hr)
        exact ⟨t, List.mem_cons_of_mem _ ht, hct⟩
      | ok exts0 => rw [hr] at h; cases h

theorem attemptedSources_setEnvVar_cons (k v : String) (l : List Event) :
    attemptedSources (Event.setEnvVar k v :: l) = attemptedSources l := rfl

theorem attemptedSources_append (l1 l2 : List Event) :
    attemptedSources (l1 ++ l2)
      = attemptedSources l1 ++ attemptedSources l2 := by
  simp [attemptedSources]

theorem attemptedSources_map_compileCall (env : Env) (srcs : List String) :
    attemptedSources (srcs.map (fun s => Event.compileCall s env)) = srcs := by
  induction srcs with
  | nil => rfl
  | cons s rest ih =>
    simp only [List.map_cons, attemptedSources, List.filterMap_cons] at ih ⊢
    rw [ih]

theorem run_attempted_eq_compileAll (env0 : Env) (fs : List String)
    (compile : String → Except String Unit) :
    attemptedSources (runSetupScript env0 fs compile).1
      = attemptedSources
          (compileAll (scriptFinalEnv env0) compile (resolveGlob pyxGlob fs)).1 := by
  simp only [runSetupScript]
  rw [attemptedSources_setEnvVar_cons, attemptedSources_append,
    attemptedSources_registerEvents, List.append_nil]

theorem run_snd_env_indep (env0 env0' : Env) (fs : List String)
    (compile : String → Except String Unit) :
    (runSetupScript env0 fs compile).2 = (runSetupScript env0' fs compile).2 := by
  simp only [runSetupScript]
  rw [compileAll_snd_env_indep (scriptFinalEnv env0) (scriptFinalEnv env0')]

/-! ### Helper lemmas about registration -/

theorem registerDist_idem_aux (reg : List Distribution) (d : Distribution) :
    registerDist (registerDist reg d) d = registerDist reg d := by
  simp [registerDist, List.filter_cons, List.filter_filter]

theorem registerDist_count_aux (reg : List Distribution) (d : Distribution) :
    ((registerDist reg d).filter (fun r => r.name == d.name)).length = 1 := by
  simp [registerDist, List.filter_cons, List.filter_filter]

theorem compileAll_error_of_failure (env : Env)
    (compile : String → Except String Unit) (srcs : List String)
    (h : ∃ s ∈ srcs, ∃ m, compile s = Except.error m) :
    ∃ m, (compileAll env compile srcs).2 = Except.error m := by
  induction srcs with
  | nil => simp at h
  | cons s rest ih =>
    cases hc : compile s with
    | error m => exact ⟨m, by simp [compileAll, hc]⟩
    | ok u =>
      have h' : ∃ t ∈ rest, ∃ m, compile t = Except.error m := by
        obtain ⟨t, ht, m, hm⟩ := h
        rcases List.mem_cons.mp ht with h1 | h1
        · subst h1; rw [hc] at hm; cases hm
        · exact ⟨t, h1, m, hm⟩
      obtain ⟨m, hm⟩ := ih h'
      refine ⟨m, ?_⟩
      rw [show (compileAll env compile (s :: rest)).2
            = ((compileAll env compile rest).2).map (fun l => mkExt s :: l) by
          simp [compileAll, hc]]
      rw [hm]
      rfl

end Annogen

namespace Annogen

/-! ### Claim theorems -/

/-- C1: the build configuration the script writes is a flat mapping with
exactly one entry — the `CFLAGS` compiler-flag string — placed in the
process-wide environment before the build is invoked: the trace of one run
contains exactly one environment write, carrying the literal flag value,
and it is the very first event of the run. -/
theorem run_single_env_write_before_build (env0 : Env) (fs : List String)
    (compile : String → Except String Unit) :
    ((runSetupScript env0 fs compile).1).filter isEnvWrite
        = [Event.setEnvVar "CFLAGS" cflagsLiteral]
    ∧ ((runSetupScript env0 fs compile).1).head?
        = some (Event.setEnvVar "CFLAGS" cflagsLiteral) := by
  constructor
  · simp only [runSetupScript, List.filter_cons, List.filter_append]
    simp [isEnvWrite, compileAll_no_env_write, registerEvents_no_env_write]
  · rfl

/-- C2: during every run, every invocation of the compiler toolchain sees
the process environment with the optimization/standard-library flag already
present: any `compileCall` event in the trace carries an environment in
which `CFLAGS` is bound to the flag string. -/
theorem run_compiler_sees_cflags (env0 : Env) (fs : List String)
    (compile : String → Except String Unit) (s : String) (env1 : Env)
    (he : Event.compileCall s env1 ∈ (runSetupScript env0 fs compile).1) :
    getEnv env1 "CFLAGS" = some cflagsLiteral := by
  have hmem : Event.compileCall s env1
      ∈ (compileAll (scriptFinalEnv env0) compile (resolveGlob pyxGlob fs)).1 := by
    simp only [runSetupScript, List.mem_cons, List.mem_append] at he
    rcases he with h1 | h1 | h1
    · cases h1
    · exact h1
    · exact absurd h1 (registerEvents_no_compileCall _ _ _)
  rw [compileAll_compileCall_env _ compile _ s env1 hmem, scriptFinalEnv]
  exact getEnv_setEnv_same env0 "CFLAGS" cflagsLiteral

theorem run_compiler_sees_cflags_witness :
    Event.compileCall "annogen/a.pyx" (scriptFinalEnv [])
        ∈ (runSetupScript [] ["annogen/a.pyx"] (fun _ => Except.ok ())).1
    ∧ getEnv (scriptFinalEnv []) "CFLAGS" = some cflagsLiteral := by
  have hmem : Event.compileCall "annogen/a.pyx" (scriptFinalEnv [])
      ∈ (runSetupScript [] ["annogen/a.pyx"] (fun _ => Except.ok ())).1 := by
    decide
  exact ⟨hmem, run_compiler_sees_cflags [] ["annogen/a.pyx"]
    (fun _ => Except.ok ()) "annogen/a.pyx" (scriptFinalEnv []) hmem⟩

/-- C3: a successful run registers a single distribution named `annogen`
with packages `["annogen"]` and runtime dependencies `["cython>=0.27"]`,
whose extension modules are the C++-language modules cythonized from the
files matched by `annogen/*.pyx`, and the registration event appears in
the trace. -/
theorem run_registers_annogen_distribution (env0 : Env) (fs : List String)
    (compile : String → Except String Unit) (d : Distribution)
    (h : (runSetupScript env0 fs compile).2 = Except.ok d) :
    d.name = "annogen"
    ∧ d.packages = ["annogen"]
    ∧ d.install_requires = ["cython>=0.27"]
    ∧ d.ext_modules = (resolveGlob pyxGlob fs).map mkExt
    ∧ (d.ext_modules).all (fun e => e.language == "c++") = true
    ∧ Event.buildRegister d ∈ (runSetupScript env0 fs compile).1 := by
  simp only [runSetupScript] at h
  cases hr : (compileAll (scriptFinalEnv env0) compile (resolveGlob pyxGlob fs)).2 with
  | error e => rw [hr] at h; cases h
  | ok exts =>
    rw [hr] at h
    simp only [Except.map] at h
    have hd : d = mkDist exts := by
      cases h
      rfl
    have hexts : exts = (resolveGlob pyxGlob fs).map mkExt :=
      compileAll_ok_shape _ compile _ exts hr
    subst hd
    refine ⟨rfl, rfl, rfl, by simp [mkDist, hexts], ?_, ?_⟩
    · simp only [mkDist, hexts, List.all_eq_true]
      intro e hel
      obtain ⟨t, ht, rfl⟩ := List.mem_map.mp hel
      rfl
    · simp only [runSetupScript, List.mem_cons, List.mem_append]
      right; right
      rw [hr]
      simp [registerEvents]

theorem run_registers_annogen_distribution_witness :
    (runSetupScript [] ["annogen/a.pyx", "README.md"]
          (fun _ => Except.ok ())).2
        = Except.ok (mkDist [mkExt "annogen/a.pyx"])
    ∧ (mkDist [mkExt "annogen/a.pyx"]).name = "annogen"
    ∧ (mkDist [mkExt "annogen/a.pyx"]).packages = ["annogen"]
    ∧ (mkDist [mkExt "annogen/a.pyx"]).install_requires = ["cython>=0.27"] := by
  have h : (runSetupScript [] ["annogen/a.pyx", "README.md"]
      (fun _ => Except.ok ())).2 = Except.ok (mkDist [mkExt "annogen/a.pyx"]) := by
    rfl
  have hc := run_registers_annogen_distribution [] ["annogen/a.pyx", "README.md"]
    (fun _ => Except.ok ()) (mkDist [mkExt "annogen/a.pyx"]) h
  exact ⟨h, hc.1, hc.2.1, hc.2.2.1⟩

/-- C4: the set of source files the compiler is invoked on is exactly the
collection matched by the glob pattern `annogen/*.pyx` against the
build-time file system `fs` — the sources attempted in the trace coincide
with the glob resolution, which depends only on `fs`. -/
theorem run_compiles_exactly_glob_matches (env0 : Env) (fs : List String)
    (compile : String → Except String Unit)
    (h : ∀ s, compile s = Except.ok ()) :
    attemptedSources (runSetupScript env0 fs compile).1
      = resolveGlob pyxGlob fs := by
  rw [run_attempted_eq_compileAll,
    compileAll_all_ok (scriptFinalEnv env0) compile (resolveGlob pyxGlob fs) h]
  exact attemptedSources_map_compileCall (scriptFinalEnv env0)
    (resolveGlob pyxGlob fs)

theorem run_compiles_exactly_glob_matches_witness :
    attemptedSources (runSetupScript [] ["annogen/a.pyx", "README.md", "annogen/b.pyx"]
        (fun _ => Except.ok ())).1
      = resolveGlob pyxGlob ["annogen/a.pyx", "README.md", "annogen/b.pyx"] :=
  run_compiles_exactly_glob_matches [] ["annogen/a.pyx", "README.md", "annogen/b.pyx"]
    (fun _ => Except.ok ()) (fun _ => rfl)

/-- C5: if the external toolchain fails on the matched sources, the failure
propagates unmodified through the script — the run's outcome is the very
same error, the exit status is non-zero, and no registration event is
produced: there is no recovery, retry, or partial-failure handling. -/
theorem run_build_failure_propagates (env0 : Env) (fs : List String)
    (compile : String → Except String Unit) (m : String)
    (h : (compileAll (scriptFinalEnv env0) compile (resolveGlob pyxGlob fs)).2
          = Except.error m) :
    (runSetupScript env0 fs compile).2 = Except.error m
    ∧ exitCode (runSetupScript env0 fs compile).2 ≠ 0
    ∧ registerEvents
        (compileAll (scriptFinalEnv env0) compile (resolveGlob pyxGlob fs)).2
        = [] := by
  have h1 : (runSetupScript env0 fs compile).2 = Except.error m := by
    simp only [runSetupScript]
    rw [h]
    rfl
  refine ⟨h1, ?_, ?_⟩
  · rw [h1]
    simp [exitCode]
  · rw [h]
    rfl

theorem run_build_failure_propagates_witness :
    (compileAll (scriptFinalEnv [])
          (fun _ => Except.error "syntax error")
          (resolveGlob pyxGlob ["annogen/bad.pyx"])).2
        = Except.error "syntax error"
    ∧ (runSetupScript [] ["annogen/bad.pyx"]
          (fun _ => Except.error "syntax error")).2
        = Except.error "syntax error"
    ∧ exitCode (runSetupScript [] ["annogen/bad.pyx"]
          (fun _ => Except.error "syntax error")).2 ≠ 0 := by
  have h : (compileAll (scriptFinalEnv [])
      (fun _ => Except.error "syntax error")
      (resolveGlob pyxGlob ["annogen/bad.pyx"])).2
        = Except.error "syntax error" := by
    rfl
  have hc := run_build_failure_propagates [] ["annogen/bad.pyx"]
    (fun _ => Except.error "syntax error") "syntax error" h
  exact ⟨h, hc.1, hc.2.1⟩

/-- C6: when no file matches `annogen/*.pyx`, the run does not fail: it
succeeds and produces a distribution with an empty extension-module set
(exit status zero) — of the two behaviors the spec allows, the code
exhibits exactly the empty-module-set one. -/
theorem run_empty_glob_yields_empty_module_set (env0 : Env)
    (fs : List String) (compile : String → Except String Unit)
    (h : resolveGlob pyxGlob fs = []) :
    (runSetupScript env0 fs compile).2 = Except.ok (mkDist [])
    ∧ (mkDist ([] : List Extension)).ext_modules = []
    ∧ exitCode (runSetupScript env0 fs compile).2 = 0 := by
  have h1 : (runSetupScript env0 fs compile).2 = Except.ok (mkDist []) := by
    simp only [runSetupScript]
    rw [h]
    rfl
  exact ⟨h1, rfl, by rw [h1]; rfl⟩

theorem run_empty_glob_yields_empty_module_set_witness :
    resolveGlob pyxGlob ["README.md", "annogen/util.py"] = []
    ∧ (runSetupScript [] ["README.md", "annogen/util.py"]
          (fun _ => Except.ok ())).2
        = Except.ok (mkDist []) := by
  have h : resolveGlob pyxGlob ["README.md", "annogen/util.py"] = [] := by
    decide
  exact ⟨h, (run_empty_glob_yields_empty_module_set []
    ["README.md", "annogen/util.py"] (fun _ => Except.ok ()) h).1⟩

/-- C7: for a fixed, unchanged file-system state, two runs of the build —
even from different initial environments — attempt exactly the same list of
compilation targets and produce the same outcome: glob resolution, and the
whole build result, are deterministic functions of the file system. -/
theorem run_targets_deterministic (env0 env0' : Env) (fs : List String)
    (compile : String → Except String Unit) :
    attemptedSources (runSetupScript env0 fs compile).1
      = attemptedSources (runSetupScript env0' fs compile).1
    ∧ (runSetupScript env0 fs compile).2
      = (runSetupScript env0' fs compile).2 := by
  constructor
  · rw [run_attempted_eq_compileAll, run_attempted_eq_compileAll]
    exact compileAll_attempted_env_indep (scriptFinalEnv env0)
      (scriptFinalEnv env0') compile (resolveGlob pyxGlob fs)
  · exact run_snd_env_indep env0 env0' fs compile

/-- C8: re-running the build script is idempotent with respect to package
registration: the second run registers the same distribution, registering
it again leaves the registry exactly as after the first registration, and
the registry holds exactly one entry under the distribution's name. -/
theorem rerun_registration_idempotent (reg : List Distribution)
    (env0 env0' : Env) (fs : List String)
    (compile : String → Except String Unit) (d d' : Distribution)
    (h1 : (runSetupScript env0 fs compile).2 = Except.ok d)
    (h2 : (runSetupScript env0' fs compile).2 = Except.ok d') :
    registerDist (registerDist reg d) d' = registerDist reg d
    ∧ ((registerDist (registerDist reg d) d').filter
        (fun r => r.name == d.name)).length = 1 := by
  have hdd : d = d' := by
    have hx := run_snd_env_indep env0 env0' fs compile
    rw [h1, h2] at hx
    injection hx
  subst hdd
  exact ⟨registerDist_idem_aux reg d, by
    rw [registerDist_idem_aux reg d]
    exact registerDist_count_aux reg d⟩

theorem rerun_registration_idempotent_witness :
    registerDist (registerDist [] (mkDist [mkExt "annogen/a.pyx"]))
        (mkDist [mkExt "annogen/a.pyx"])
      = registerDist [] (mkDist [mkExt "annogen/a.pyx"])
    ∧ ((registerDist (registerDist [] (mkDist [mkExt "annogen/a.pyx"]))
          (mkDist [mkExt "annogen/a.pyx"])).filter
        (fun r => r.name == (mkDist [mkExt "annogen/a.pyx"]).name)).length = 1 :=
  rerun_registration_idempotent [] [] [("HOME", "/root")] ["annogen/a.pyx"]
    (fun _ => Except.ok ()) (mkDist [mkExt "annogen/a.pyx"])
    (mkDist [mkExt "annogen/a.pyx"]) (by rfl) (by rfl)

/-- C9: the script stores the compiler-flag string in the environment
verbatim and opaquely: whatever string is written to `CFLAGS` is read back
unparsed and unmodified, and in the actual run the value read back is the
exact literal from the source. -/
theorem cflags_stored_verbatim (env0 : Env) (s : String) :
    getEnv (setEnv env0 "CFLAGS" s) "CFLAGS" = some s
    ∧ getEnv (scriptFinalEnv env0) "CFLAGS" = some cflagsLiteral :=
  ⟨getEnv_setEnv_same env0 "CFLAGS" s,
   getEnv_setEnv_same env0 "CFLAGS" cflagsLiteral⟩

/-- C10: for every initial environment, the script overwrites `CFLAGS`
with the literal flag string — any pre-existing value is discarded, not
appended to — and every other environment variable is left exactly as it
was: `CFLAGS` is the only variable the script modifies. -/
theorem run_overwrites_only_cflags (env0 : Env) :
    getEnv (scriptFinalEnv env0) "CFLAGS" = some cflagsLiteral
    ∧ (scriptFinalEnv env0).filter (fun p => p.1 != "CFLAGS")
        = env0.filter (fun p => p.1 != "CFLAGS")
    ∧ ∀ k, k ≠ "CFLAGS" → getEnv (scriptFinalEnv env0) k = getEnv env0 k :=
  ⟨getEnv_setEnv_same env0 "CFLAGS" cflagsLiteral,
   filter_ne_setEnv env0 "CFLAGS" cflagsLiteral,
   fun k hk => getEnv_setEnv_other env0 "CFLAGS" k cflagsLiteral hk⟩

theorem run_overwrites_only_cflags_witness :
    getEnv (scriptFinalEnv [("CFLAGS", "-O0"), ("PATH", "/usr/bin")]) "CFLAGS"
        = some cflagsLiteral
    ∧ getEnv (scriptFinalEnv [("CFLAGS", "-O0"), ("PATH", "/usr/bin")]) "PATH"
        = getEnv [("CFLAGS", "-O0"), ("PATH", "/usr/bin")] "PATH" := by
  have h := run_overwrites_only_cflags [("CFLAGS", "-O0"), ("PATH", "/usr/bin")]
  exact ⟨h.1, h.2.2 "PATH" (by decide)⟩

end Annogen
